import Mathlib

/-!
Verification development for the custom-chess repository.

Part 1 embeds the authoritative session server (src/unnamed/part_000, a
socket.io event server): room registry, offer negotiation and move relay.
JS objects keyed by room id are embedded as association lists with unique
keys; socket.io rooms (the adapter) are tracked separately from the
rooms registry, exactly as in the source.  Each socket event handler
becomes a pure function from server state and event data to an
acknowledgement, the successor state, and the list of emitted messages.

Part 2 embeds the rule engine (src/unnamed/part_001): snapshot history,
depth-bounded undo, and the two-step variant's turn machine.  The
snapshot array is stored newest first (the JS array end is the list
head).  The underlying chess.js game is modelled by its FEN string; the
outcome of a chess.js move (resulting FEN, check flag, game-over flag)
is an oracle input, since chess.js is an external library.  The
two-step variant's side-to-move override manipulates the FEN string by
splitting on spaces, exactly as the source does; the split is embedded
by a recursive function with JS split semantics.
-/

/-! ## Association lists with unique keys (JS objects) -/

def alookup {α β : Type} [DecidableEq α] (k : α) : List (α × β) → Option β
  | [] => none
  | p :: t => if p.1 = k then some p.2 else alookup k t

def aset {α β : Type} [DecidableEq α] (k : α) (v : β) : List (α × β) → List (α × β)
  | [] => [(k, v)]
  | p :: t => if p.1 = k then (k, v) :: t else p :: aset k v t

def aerase {α β : Type} [DecidableEq α] (k : α) (l : List (α × β)) : List (α × β) :=
  l.filter (fun p => !decide (p.1 = k))

/-! ## Server data model (src/unnamed/part_000) -/

abbrev SessionId := Nat
abbrev RoomId := Nat
abbrev Fen := String

inductive OfferType
  | undo
  | draw
deriving DecidableEq

/-- offerId string Date.now() + socket.id, kept structured. -/
structure OfferId where
  time : Nat
  sid : SessionId
deriving DecidableEq

/-- pendingOffers[roomId] record: id, type, from, fromColor, plies?, baseFen?. -/
structure Offer where
  id : OfferId
  type : OfferType
  fromSid : SessionId
  fromColor : String
  plies : Option Int
  baseFen : Option Fen
deriving DecidableEq

/-- Whole-server state: rooms registry (players arrays), pending offers,
socket.io adapter room membership, and socket.data.roomId per socket. -/
structure Srv where
  rooms : List (RoomId × List SessionId)
  pendingOffers : List (RoomId × Offer)
  adapter : List (RoomId × List SessionId)
  dataRoom : List (SessionId × RoomId)
deriving DecidableEq

def initSrv : Srv := ⟨[], [], [], []⟩

/-- Payload of a make_move event: the handler reads only roomId; the rest is
relayed verbatim and stays opaque. -/
structure MoveData where
  roomId : Option RoomId
  body : String
deriving DecidableEq

inductive Msg
  | joinError (error : String)
  | playerAssignment (color : String) (playerIndex : Nat)
  | roomInfo (playerCount : Nat)
  | opponentLeft (socketId : SessionId) (reason : String)
  | offerReceived (offerId : OfferId) (type : OfferType) (fromColor : String) (plies : Option Int)
  | offerResult (offerId : OfferId) (type : OfferType) (accept : Bool) (error : Option String)
  | undoCommitted (offerId : OfferId) (plies : Int)
  | drawCommitted (offerId : OfferId)
  | receiveMove (d : MoveData)
deriving DecidableEq

/-- An emitted message with its target: socket.emit, io.to(room).emit, or
socket.to(room).emit (everyone in the room except the sender). -/
inductive Emit
  | toSelf (sid : SessionId) (m : Msg)
  | toRoom (r : RoomId) (m : Msg)
  | toOthers (r : RoomId) (sender : SessionId) (m : Msg)
deriving DecidableEq

inductive Ack
  | ok
  | okOffer (offerId : OfferId)
  | err (error : String)
deriving DecidableEq

/-- The sessions that actually receive an emitted message, derived from the
adapter membership of the target room. -/
def recipients (s : Srv) : Emit → List SessionId
  | Emit.toSelf sid _ => [sid]
  | Emit.toRoom r _ => (alookup r s.adapter).getD []
  | Emit.toOthers r sender _ => ((alookup r s.adapter).getD []).filter (fun x => decide (x ≠ sender))

/-- io.sockets.adapter.rooms.get(roomId)?.size || 0 -/
def roomSize (s : Srv) (r : RoomId) : Nat :=
  ((alookup r s.adapter).getD []).length

/-- socket.join(roomId): a socket.io room is a set of sockets. -/
def adapterJoin (s : Srv) (r : RoomId) (sid : SessionId) : Srv :=
  let cur := (alookup r s.adapter).getD []
  if sid ∈ cur then s else { s with adapter := aset r (cur ++ [sid]) s.adapter }

/-- socket.leave(roomId). -/
def adapterLeave (s : Srv) (r : RoomId) (sid : SessionId) : Srv :=
  match alookup r s.adapter with
  | none => s
  | some cur => { s with adapter := aset r (cur.erase sid) s.adapter }

/-- Upon disconnection a socket leaves every socket.io room it is in
(socket.io behaviour, before the disconnect handler runs). -/
def adapterLeaveAll (s : Srv) (sid : SessionId) : Srv :=
  { s with adapter := s.adapter.map (fun p => (p.1, p.2.erase sid)) }

/-- JS truthiness of a string-or-missing value: undefined, null and the
empty string are falsy. -/
def jsTruthyS : Option String → Bool
  | none => false
  | some s => s ≠ ""

/-- JS x || 1 for a number-or-missing value (0 and missing give 1). -/
def jsOr1 : Option Int → Int
  | none => 1
  | some v => if v = 0 then 1 else v

/-- Array.prototype.indexOf on the players array (only used on members). -/
def indexOfSid (sid : SessionId) : List SessionId → Nat
  | [] => 0
  | x :: t => if x = sid then 0 else indexOfSid sid t + 1

/-- join_room handler (src/unnamed/part_000 lines 52-93). -/
def join_room (s : Srv) (sid : SessionId) (roomId : RoomId) : Ack × Srv × List Emit :=
  let currentSize := roomSize s roomId
  if currentSize ≥ 2 then
    (Ack.err "ROOM_FULL", s, [Emit.toSelf sid (Msg.joinError "ROOM_FULL")])
  else
    let s1 := { s with dataRoom := aset sid roomId s.dataRoom }
    let s2 := adapterJoin s1 roomId sid
    let s3 := if (alookup roomId s2.rooms).isNone
              then { s2 with rooms := aset roomId [] s2.rooms } else s2
    let players := (alookup roomId s3.rooms).getD []
    let s4 := if sid ∈ players then s3
              else { s3 with rooms := aset roomId (players ++ [sid]) s3.rooms }
    let players' := (alookup roomId s4.rooms).getD []
    let playerIndex := indexOfSid sid players'
    (Ack.ok, s4,
      [Emit.toSelf sid (Msg.playerAssignment (if playerIndex = 0 then "w" else "b") playerIndex),
       Emit.toRoom roomId (Msg.roomInfo (roomSize s4 roomId))])

/-- removeFromRoom closure (src/unnamed/part_000 lines 30-50): splice the
leaver out of the players array, notify the others, then delete the room
and its pending offer if it became empty, else broadcast the player count. -/
def removeFromRoom (s : Srv) (sid : SessionId) (roomId : RoomId) (reason : String) :
    Srv × List Emit :=
  match alookup roomId s.rooms with
  | none => (s, [])
  | some players =>
    let players' := players.erase sid
    let e1 := Emit.toOthers roomId sid (Msg.opponentLeft sid reason)
    if players' = [] then
      ({ s with rooms := aerase roomId s.rooms,
                pendingOffers := aerase roomId s.pendingOffers }, [e1])
    else
      ({ s with rooms := aset roomId players' s.rooms },
       [e1, Emit.toRoom roomId (Msg.roomInfo (roomSize s roomId))])

/-- leave_room handler (src/unnamed/part_000 lines 196-205): socket.leave,
unconditional deletion of the room's pending offer, removeFromRoom, then
clearing socket.data.roomId when it names this room. -/
def leave_room (s : Srv) (sid : SessionId) (roomId : RoomId) : Srv × List Emit :=
  let s1 := adapterLeave s roomId sid
  let s2 := { s1 with pendingOffers := aerase roomId s1.pendingOffers }
  let s3 := (removeFromRoom s2 sid roomId "leave_room").1
  let es := (removeFromRoom s2 sid roomId "leave_room").2
  let s4 := if alookup sid s3.dataRoom = some roomId
            then { s3 with dataRoom := aerase sid s3.dataRoom } else s3
  (s4, es)

/-- First room (object-key order) whose players array contains the socket:
the disconnect handler's fallback scan. -/
def findRoomWith (sid : SessionId) : List (RoomId × List SessionId) → Option RoomId
  | [] => none
  | p :: t => if sid ∈ p.2 then some p.1 else findRoomWith sid t

/-- disconnect handler (src/unnamed/part_000 lines 238-255).  socket.io has
already removed the socket from every adapter room; the handler cleans the
room recorded in socket.data.roomId, or failing that the first room whose
players array still lists the socket. -/
def disconnect (s : Srv) (sid : SessionId) : Srv × List Emit :=
  let s1 := adapterLeaveAll s sid
  match alookup sid s1.dataRoom with
  | some r =>
    let s2 := (removeFromRoom s1 sid r "disconnect").1
    let es := (removeFromRoom s1 sid r "disconnect").2
    ({ s2 with dataRoom := aerase sid s2.dataRoom }, es)
  | none =>
    match findRoomWith sid s1.rooms with
    | some r => removeFromRoom s1 sid r "disconnect"
    | none => (s1, [])

/-- offer_action request data; type is none when absent or not undo/draw,
string fields are none when absent or not strings. -/
structure OfferData where
  roomId : Option RoomId
  type : Option OfferType
  fromColor : String
  plies : Option Int
  baseFen : Option Fen
deriving DecidableEq

/-- offer_action handler (src/unnamed/part_000 lines 95-141).  now is the
Date.now() timestamp used to generate the fresh offer id. -/
def offer_action (s : Srv) (sid : SessionId) (now : Nat) (d : OfferData) :
    Ack × Srv × List Emit :=
  let plies := jsOr1 d.plies
  match d.roomId, d.type with
  | some roomId, some ty =>
    if ty = OfferType.undo ∧ jsTruthyS d.baseFen = false then
      (Ack.err "BAD_REQUEST", s, [])
    else if roomSize s roomId < 2 then
      (Ack.err "OPPONENT_NOT_PRESENT", s, [])
    else
      match alookup roomId s.pendingOffers with
      | some _ => (Ack.err "OFFER_PENDING", s, [])
      | none =>
        let offerId : OfferId := ⟨now, sid⟩
        let offer : Offer :=
          { id := offerId, type := ty, fromSid := sid, fromColor := d.fromColor,
            plies := if ty = OfferType.undo then some (max 1 (min 2 plies)) else none,
            baseFen := if ty = OfferType.undo then d.baseFen else none }
        (Ack.okOffer offerId,
         { s with pendingOffers := aset roomId offer s.pendingOffers },
         [Emit.toOthers roomId sid (Msg.offerReceived offerId ty d.fromColor offer.plies)])
  | _, _ => (Ack.err "BAD_REQUEST", s, [])

/-- respond_offer request data. -/
structure RespondData where
  roomId : Option RoomId
  offerId : Option OfferId
  accept : Bool
  currentFen : Option Fen
deriving DecidableEq

/-- respond_offer handler (src/unnamed/part_000 lines 143-194). -/
def respond_offer (s : Srv) (sid : SessionId) (d : RespondData) : Ack × Srv × List Emit :=
  match d.roomId, d.offerId with
  | some roomId, some offerId =>
    match alookup roomId s.pendingOffers with
    | none => (Ack.err "OFFER_NOT_FOUND", s, [])
    | some pending =>
      if pending.id ≠ offerId then
        (Ack.err "OFFER_NOT_FOUND", s, [])
      else if pending.fromSid = sid then
        (Ack.err "CANNOT_ACCEPT_OWN", s, [])
      else if d.accept = true ∧ pending.type = OfferType.undo ∧
              (jsTruthyS d.currentFen = false ∨ jsTruthyS pending.baseFen = false ∨
               d.currentFen ≠ pending.baseFen) then
        (Ack.err "OFFER_STALE",
         { s with pendingOffers := aerase roomId s.pendingOffers },
         [Emit.toRoom roomId (Msg.offerResult offerId pending.type false (some "OFFER_STALE"))])
      else
        (Ack.ok,
         { s with pendingOffers := aerase roomId s.pendingOffers },
         [Emit.toRoom roomId (Msg.offerResult offerId pending.type d.accept none)] ++
         (if d.accept = true then
            (match pending.type with
             | OfferType.undo => [Emit.toRoom roomId (Msg.undoCommitted offerId (jsOr1 pending.plies))]
             | OfferType.draw => [Emit.toRoom roomId (Msg.drawCommitted offerId)])
          else []))
  | _, _ => (Ack.err "OFFER_NOT_FOUND", s, [])

/-- make_move handler (src/unnamed/part_000 lines 207-226): a pending undo
offer is auto-rejected before the payload is relayed verbatim to the other
participants. -/
def make_move (s : Srv) (sid : SessionId) (d : MoveData) : Srv × List Emit :=
  let cleared :=
    match d.roomId with
    | some roomId =>
      match alookup roomId s.pendingOffers with
      | some pending =>
        if pending.type = OfferType.undo then
          ({ s with pendingOffers := aerase roomId s.pendingOffers },
           [Emit.toRoom roomId
             (Msg.offerResult pending.id OfferType.undo false (some "OFFER_REJECTED_BY_MOVE"))])
        else (s, [])
      | none => (s, [])
    | none => (s, [])
  match d.roomId with
  | some roomId => (cleared.1, cleared.2 ++ [Emit.toOthers roomId sid (Msg.receiveMove d)])
  | none => cleared

/-- The pending-offer record a successful offer_action call stores
(src/unnamed/part_000 lines 123-131): fresh id from the timestamp and the
proposing socket, plies clamped into 1..2 for undo, base FEN kept for
undo only. -/
def newOffer (sid : SessionId) (now : Nat) (ty : OfferType) (d : OfferData) : Offer :=
  { id := ⟨now, sid⟩, type := ty, fromSid := sid, fromColor := d.fromColor,
    plies := if ty = OfferType.undo then some (max 1 (min 2 (jsOr1 d.plies))) else none,
    baseFen := if ty = OfferType.undo then d.baseFen else none }

/-! ## Event system and reachable states -/

inductive SEvent
  | join (sid : SessionId) (roomId : RoomId)
  | leave (sid : SessionId) (roomId : RoomId)
  | offer (sid : SessionId) (now : Nat) (d : OfferData)
  | respond (sid : SessionId) (d : RespondData)
  | move (sid : SessionId) (d : MoveData)
  | disc (sid : SessionId)

def stepSrv (s : Srv) : SEvent → Srv
  | SEvent.join sid r => (join_room s sid r).2.1
  | SEvent.leave sid r => (leave_room s sid r).1
  | SEvent.offer sid now d => (offer_action s sid now d).2.1
  | SEvent.respond sid d => (respond_offer s sid d).2.1
  | SEvent.move sid d => (make_move s sid d).1
  | SEvent.disc sid => (disconnect s sid).1

def runSrv (evs : List SEvent) : Srv := evs.foldl stepSrv initSrv

/-- Number of pending offers stored for a room. -/
def offersFor (s : Srv) (r : RoomId) : Nat :=
  (s.pendingOffers.filter (fun p => decide (p.1 = r))).length

/-- The pending-offer store has at most one entry per room key. -/
def KeysNodup (s : Srv) : Prop := (s.pendingOffers.map Prod.fst).Nodup

/-- Rewrites the reason carried by an opponent_left notice; used to compare
the leave and disconnect transitions. -/
def setReason (reason : String) : Emit → Emit
  | Emit.toOthers r sender (Msg.opponentLeft sid _) =>
      Emit.toOthers r sender (Msg.opponentLeft sid reason)
  | e => e

/-- Whether an emitted message is a player_assignment (a color assignment). -/
def isAssignment : Emit → Bool
  | Emit.toSelf _ (Msg.playerAssignment _ _) => true
  | Emit.toRoom _ (Msg.playerAssignment _ _) => true
  | Emit.toOthers _ _ (Msg.playerAssignment _ _) => true
  | _ => false

/-! ## Rule engine (src/unnamed/part_001) -/

/-- Variant turn sub-state stored in a snapshot (two-step: turnStep). -/
structure RulesState where
  turnStep : Nat
deriving DecidableEq

structure Snapshot where
  fen : String
  rulesState : Option RulesState
deriving DecidableEq

inductive Variant
  | standard
  | twoStep
deriving DecidableEq

/-- A rule-engine instance: the chess.js game is modelled by its FEN; the
snapshot array is stored newest first (JS array end = list head). -/
structure Engine where
  variant : Variant
  gameFen : String
  turnStep : Nat
  snapshots : List Snapshot
deriving DecidableEq

/-- getRulesState: null for the standard rules, the turnStep record for the
two-step rules. -/
def getRulesState (e : Engine) : Option RulesState :=
  match e.variant with
  | Variant.standard => none
  | Variant.twoStep => some ⟨e.turnStep⟩

/-- setRulesState: the base class ignores it; the two-step class accepts
turnStep 0 or 1, resets to 0 on null, and ignores other values. -/
def setRulesState (e : Engine) (st : Option RulesState) : Engine :=
  match e.variant with
  | Variant.standard => e
  | Variant.twoStep =>
    match st with
    | some rs => if rs.turnStep = 0 ∨ rs.turnStep = 1 then { e with turnStep := rs.turnStep } else e
    | none => { e with turnStep := 0 }

/-- pushSnapshot: record the current FEN and rules state. -/
def pushSnapshot (e : Engine) : Engine :=
  { e with snapshots := { fen := e.gameFen, rulesState := getRulesState e } :: e.snapshots }

/-- canUndoPlies (src/unnamed/part_001 lines 215-219); the JS numeric
coercion of the argument is pre-applied. -/
def canUndoPlies (e : Engine) (plies : Nat) : Bool :=
  if plies ≤ 0 then false else decide (e.snapshots.length > plies)

/-- undoPlies (src/unnamed/part_001 lines 229-240): clamp the request,
check, pop, reload position and rules state from the new top. -/
def undoPlies (e : Engine) (plies : Nat) : Option Snapshot × Engine :=
  let n := max 1 (if plies = 0 then 1 else plies)
  if canUndoPlies e n = false then (none, e)
  else
    match e.snapshots.drop n with
    | [] => (none, e)
    | last :: rest =>
      (some last,
       setRulesState { e with gameFen := last.fen, snapshots := last :: rest } last.rulesState)

/-- A snapshot is well formed for a variant when its stored rules state is
one the variant itself produces (null for standard, turnStep 0 or 1 for
two-step); every snapshot the engine pushes has this shape. -/
def wfSnap (v : Variant) (sn : Snapshot) : Prop :=
  match v with
  | Variant.standard => sn.rulesState = none
  | Variant.twoStep => sn.rulesState = some ⟨0⟩ ∨ sn.rulesState = some ⟨1⟩

/-! ### FEN string plumbing for the two-step side-to-move override -/

/-- JS String.prototype.split on a single space, over character lists. -/
def jsSplitChars : List Char → List (List Char)
  | [] => [[]]
  | c :: rest =>
    match jsSplitChars rest with
    | [] => [[]]
    | w :: ws => if c = ' ' then [] :: w :: ws else (c :: w) :: ws

/-- Array.prototype.join with a single space, over character lists. -/
def joinSpChars : List (List Char) → List Char
  | [] => []
  | [w] => w
  | w :: ws => w ++ ' ' :: joinSpChars ws

def jsSplitStr (s : String) : List String := (jsSplitChars s.data).map String.mk

def jsJoinStr (parts : List String) : String := String.mk (joinSpChars (parts.map String.data))

/-- The side-to-move field of a FEN string (field 1), as chess.js reports
it through game.turn() after loading the FEN. -/
def fenTurn (fen : String) : String := (jsSplitStr fen).getD 1 ""

def otherColor (c : String) : String := if c = "w" then "b" else "w"

/-- The two-step makeMove FEN hack: split on spaces, overwrite the active
color field, join back. -/
def overrideTurnFen (fen : String) (color : String) : String :=
  jsJoinStr ((jsSplitStr fen).set 1 color)

/-- Outcome of a legal chess.js game.move call, queried immediately after
the move: the new FEN (side to move already flipped by chess.js), whether
the side now to move is in check, and whether the game is over. -/
structure ChessOutcome where
  nextFen : String
  inCheck : Bool
  gameOver : Bool
deriving DecidableEq

/-- TwoStepChessRules.makeMove (src/unnamed/part_001 lines 324-370).  The
oracle argument is none when chess.js rejects or throws on the move, and
carries the chess.js outcome otherwise. -/
def twoStepMakeMove (e : Engine) (oracle : Option ChessOutcome) :
    Option ChessOutcome × Engine :=
  let moverColor := fenTurn e.gameFen
  let isFirstStep := e.turnStep = 0
  match oracle with
  | none => (none, e)
  | some result =>
    let e1 := { e with gameFen := result.nextFen }
    if result.gameOver = true then
      (some result, pushSnapshot { e1 with turnStep := 0 })
    else if isFirstStep ∧ result.inCheck = true then
      (some result, pushSnapshot { e1 with turnStep := 0 })
    else if isFirstStep then
      let overridden := overrideTurnFen e1.gameFen moverColor
      (some result, pushSnapshot { e1 with gameFen := overridden, turnStep := 1 })
    else
      (some result, pushSnapshot { e1 with turnStep := 0 })

/-! ## Concrete fixtures used by witnesses and counterexamples -/

/-- A pending undo offer proposed by session 0 against base FEN F1. -/
def undoOffer0 : Offer :=
  { id := ⟨5, 0⟩, type := OfferType.undo, fromSid := 0, fromColor := "w",
    plies := some 1, baseFen := some "F1" }

/-- A pending draw offer proposed by session 0. -/
def drawOffer0 : Offer :=
  { id := ⟨7, 0⟩, type := OfferType.draw, fromSid := 0, fromColor := "w",
    plies := none, baseFen := none }

/-- Room 10 with sessions 0 and 1 and a pending undo offer from 0. -/
def srvUndoPending : Srv :=
  { rooms := [(10, [0, 1])], pendingOffers := [(10, undoOffer0)],
    adapter := [(10, [0, 1])], dataRoom := [(0, 10), (1, 10)] }

/-- Room 10 with sessions 0 and 1 and a pending draw offer from 0. -/
def srvDrawPending : Srv :=
  { rooms := [(10, [0, 1])], pendingOffers := [(10, drawOffer0)],
    adapter := [(10, [0, 1])], dataRoom := [(0, 10), (1, 10)] }

/-- Room 10 with sessions 0 and 1 and no pending offer. -/
def srvNoPending : Srv :=
  { rooms := [(10, [0, 1])], pendingOffers := [],
    adapter := [(10, [0, 1])], dataRoom := [(0, 10), (1, 10)] }

/-- A two-step engine about to play the first half-move of a white turn. -/
def engTwoStep0 : Engine :=
  { variant := Variant.twoStep, gameFen := "p w c e 0 1", turnStep := 0,
    snapshots := [{ fen := "p w c e 0 1", rulesState := some ⟨0⟩ }] }

/-- The event trace that leaks a stale player entry: session 0 joins rooms
10 and 20, disconnects (only room 20 is cleaned), then sessions 1 and 2
join room 10 on top of the stale entry. -/
def leakTrace : List SEvent :=
  [SEvent.join 0 10, SEvent.join 0 20, SEvent.disc 0,
   SEvent.join 1 10, SEvent.join 2 10]

/-- A standard-rules engine with three snapshots (two moves played). -/
def engStd3 : Engine :=
  { variant := Variant.standard, gameFen := "f2", turnStep := 0,
    snapshots := [Snapshot.mk "f2" none, Snapshot.mk "f1" none, Snapshot.mk "f0" none] }

/-- respond_offer data accepting undoOffer0 with the matching fingerprint. -/
def respondMatch : RespondData :=
  { roomId := some 10, offerId := some ⟨5, 0⟩, accept := true, currentFen := some "F1" }

/-- respond_offer data accepting undoOffer0 with a different fingerprint. -/
def respondStale : RespondData :=
  { roomId := some 10, offerId := some ⟨5, 0⟩, accept := true, currentFen := some "F2" }

/-- A make_move payload for room 10. -/
def moveData10 : MoveData := { roomId := some 10, body := "mv" }

/-- An undo offer_action request for room 10 asking to take back 3 plies. -/
def undoReq3 : OfferData :=
  { roomId := some 10, type := some OfferType.undo, fromColor := "w",
    plies := some 3, baseFen := some "F1" }

/-- One dispatcher step that also accumulates the emitted messages. -/
def stepSrvE (acc : Srv × List Emit) (ev : SEvent) : Srv × List Emit :=
  match ev with
  | SEvent.join sid r =>
    ((join_room acc.1 sid r).2.1, acc.2 ++ (join_room acc.1 sid r).2.2)
  | SEvent.leave sid r =>
    ((leave_room acc.1 sid r).1, acc.2 ++ (leave_room acc.1 sid r).2)
  | SEvent.offer sid now d =>
    ((offer_action acc.1 sid now d).2.1, acc.2 ++ (offer_action acc.1 sid now d).2.2)
  | SEvent.respond sid d =>
    ((respond_offer acc.1 sid d).2.1, acc.2 ++ (respond_offer acc.1 sid d).2.2)
  | SEvent.move sid d =>
    ((make_move acc.1 sid d).1, acc.2 ++ (make_move acc.1 sid d).2)
  | SEvent.disc sid =>
    ((disconnect acc.1 sid).1, acc.2 ++ (disconnect acc.1 sid).2)

def runSrvE (evs : List SEvent) : Srv × List Emit := evs.foldl stepSrvE (initSrv, [])

/-- The color carried by the last player_assignment delivered to a socket
over a trace: the color the client ends up holding (the provided client
keeps the first assignment, but over these traces at most one is sent). -/
def lastAssignedColor (sid : SessionId) (es : List Emit) : Option String :=
  es.foldl
    (fun acc e =>
      match e with
      | Emit.toSelf sid2 (Msg.playerAssignment c _) => if sid2 = sid then some c else acc
      | _ => acc)
    none

def colorOf (evs : List SEvent) (sid : SessionId) : Option String :=
  lastAssignedColor sid (runSrvE evs).2

/-- The color the spec derives from a participant's current index. -/
def indexDerivedColor (evs : List SEvent) (r : RoomId) (sid : SessionId) : String :=
  if indexOfSid sid ((alookup r (runSrv evs).rooms).getD []) = 0 then "w" else "b"

/-- Sessions 0 and 1 join room 10, then session 0 leaves. -/
def c8Trace : List SEvent :=
  [SEvent.join 0 10, SEvent.join 1 10, SEvent.leave 0 10]

/-- Sessions 0 and 1 join room 10 (a full room). -/
def fullTrace : List SEvent := [SEvent.join 0 10, SEvent.join 1 10]

/-! ## Association-list lemmas -/

theorem alookup_aset_self {α β : Type} [DecidableEq α] (k : α) (v : β) (l : List (α × β)) :
    alookup k (aset k v l) = some v := by
  induction l with
  | nil => simp [aset, alookup]
  | cons p t ih => by_cases h : p.1 = k <;> simp [aset, alookup, h, ih]

theorem alookup_aset_ne {α β : Type} [DecidableEq α] (k k' : α) (v : β) (l : List (α × β))
    (h : k' ≠ k) : alookup k' (aset k v l) = alookup k' l := by
  induction l with
  | nil => simp [aset, alookup, Ne.symm h]
  | cons p t ih =>
    by_cases hp : p.1 = k
    · have hpk' : p.1 ≠ k' := by rw [hp]; exact Ne.symm h
      simp [aset, alookup, hp, Ne.symm h, hpk']
    · simp [aset, alookup, hp, ih]

theorem alookup_aerase_self {α β : Type} [DecidableEq α] (k : α) (l : List (α × β)) :
    alookup k (aerase k l) = none := by
  induction l with
  | nil => simp [aerase, alookup]
  | cons p t ih =>
    by_cases h : p.1 = k
    · simpa [aerase, List.filter_cons, h] using ih
    · have ih2 : alookup k (List.filter (fun p => !decide (p.1 = k)) t) = none := ih
      simp [aerase, List.filter_cons, h, alookup, ih2]

theorem alookup_aerase_ne {α β : Type} [DecidableEq α] (k k' : α) (l : List (α × β))
    (h : k' ≠ k) : alookup k' (aerase k l) = alookup k' l := by
  induction l with
  | nil => simp [aerase, alookup]
  | cons p t ih =>
    have ih2 : alookup k' (List.filter (fun p => !decide (p.1 = k)) t) = alookup k' t := ih
    by_cases hp : p.1 = k
    · have hpk' : p.1 ≠ k' := by rw [hp]; exact Ne.symm h
      simp [aerase, List.filter_cons, hp, alookup, hpk', Ne.symm h, ih2]
    · by_cases hp' : p.1 = k'
      · simp [aerase, List.filter_cons, hp, alookup, hp', h, ih2]
      · simp [aerase, List.filter_cons, hp, alookup, hp', ih2]

theorem alookup_map_snd {α β γ : Type} [DecidableEq α] (k : α) (g : β → γ) (l : List (α × β)) :
    alookup k (l.map (fun p => (p.1, g p.2))) = (alookup k l).map g := by
  induction l with
  | nil => simp [alookup]
  | cons p t ih => by_cases h : p.1 = k <;> simp [alookup, h, ih]

theorem mem_map_fst_aset {α β : Type} [DecidableEq α] (k x : α) (v : β) (l : List (α × β))
    (hx : x ∈ (aset k v l).map Prod.fst) : x = k ∨ x ∈ l.map Prod.fst := by
  induction l with
  | nil =>
    simp only [aset, List.map_cons, List.map_nil] at hx
    rcases List.mem_cons.mp hx with hx | hx
    · exact Or.inl hx
    · exact absurd hx (List.not_mem_nil x)
  | cons p t ih =>
    by_cases h : p.1 = k
    · simp only [aset, if_pos h, List.map_cons] at hx
      rcases List.mem_cons.mp hx with hx | hx
      · exact Or.inl hx
      · exact Or.inr (by rw [List.map_cons]; exact List.mem_cons_of_mem _ hx)
    · simp only [aset, if_neg h, List.map_cons] at hx
      rcases List.mem_cons.mp hx with hx | hx
      · exact Or.inr (by rw [List.map_cons, hx]; exact List.mem_cons_self _ _)
      · rcases ih hx with hh | hh
        · exact Or.inl hh
        · exact Or.inr (by rw [List.map_cons]; exact List.mem_cons_of_mem _ hh)

theorem keysNodup_aset {α β : Type} [DecidableEq α] (k : α) (v : β) (l : List (α × β))
    (h : (l.map Prod.fst).Nodup) : ((aset k v l).map Prod.fst).Nodup := by
  induction l with
  | nil => simp [aset]
  | cons p t ih =>
    rw [List.map_cons, List.nodup_cons] at h
    by_cases hp : p.1 = k
    · simp only [aset, if_pos hp, List.map_cons, List.nodup_cons]
      exact ⟨hp ▸ h.1, h.2⟩
    · simp only [aset, if_neg hp, List.map_cons, List.nodup_cons]
      refine ⟨fun hmem => ?_, ih h.2⟩
      rcases mem_map_fst_aset k p.1 v t hmem with hh | hh
      · exact hp hh
      · exact h.1 hh

theorem keysNodup_aerase {α β : Type} [DecidableEq α] (k : α) (l : List (α × β))
    (h : (l.map Prod.fst).Nodup) : ((aerase k l).map Prod.fst).Nodup :=
  h.sublist ((List.filter_sublist l).map Prod.fst)

theorem length_filter_key_le_one {α β : Type} [DecidableEq α] (r : α) (l : List (α × β))
    (h : (l.map Prod.fst).Nodup) :
    (l.filter (fun p => decide (p.1 = r))).length ≤ 1 := by
  induction l with
  | nil => simp
  | cons p t ih =>
    rw [List.map_cons, List.nodup_cons] at h
    by_cases hp : p.1 = r
    · have hnone : t.filter (fun q => decide (q.1 = r)) = [] := by
        rw [List.filter_eq_nil_iff]
        intro q hq hqr
        have hq1 : q.1 = r := of_decide_eq_true hqr
        have : p.1 ∈ t.map Prod.fst := by
          rw [hp, ← hq1]; exact List.mem_map_of_mem Prod.fst hq
        exact h.1 this
      simp [List.filter_cons, hp, hnone]
    · simpa [List.filter_cons, hp] using ih h.2

/-! ## JS split/join round-trip lemmas -/

theorem jsSplitChars_ne_nil : ∀ s : List Char, jsSplitChars s ≠ [] := by
  intro s
  induction s with
  | nil => simp [jsSplitChars]
  | cons c rest ih =>
    unfold jsSplitChars
    cases h : jsSplitChars rest with
    | nil => simp
    | cons w ws => by_cases hc : c = ' ' <;> simp [hc]

theorem jsSplitChars_append : ∀ w : List Char, ' ' ∉ w → ∀ (s h : List Char)
    (t : List (List Char)), jsSplitChars s = h :: t →
    jsSplitChars (w ++ s) = (w ++ h) :: t := by
  intro w
  induction w with
  | nil => intro _ s h t hs; simpa using hs
  | cons c w' ih =>
    intro hw s h t hs
    have hc : c ≠ ' ' := by intro hcc; exact hw (by simp [hcc])
    have hw' : ' ' ∉ w' := by intro hm; exact hw (by simp [hm])
    have ih2 := ih hw' s h t hs
    show jsSplitChars (c :: (w' ++ s)) = ((c :: w') ++ h) :: t
    unfold jsSplitChars
    rw [ih2]
    simp [hc]

theorem jsSplitChars_single (w : List Char) (hw : ' ' ∉ w) : jsSplitChars w = [w] := by
  have h := jsSplitChars_append w hw [] [] [] (by simp [jsSplitChars])
  simpa using h

theorem jsSplitChars_joinSp : ∀ l : List (List Char), l ≠ [] → (∀ w ∈ l, ' ' ∉ w) →
    jsSplitChars (joinSpChars l) = l := by
  intro l
  induction l with
  | nil => intro h _; exact absurd rfl h
  | cons w ws ih =>
    intro _ hl
    cases ws with
    | nil => simpa [joinSpChars] using jsSplitChars_single w (hl w (by simp))
    | cons x t =>
      have hws : jsSplitChars (joinSpChars (x :: t)) = x :: t :=
        ih (by simp) (fun v hv => hl v (by simp [hv]))
      have hsp : jsSplitChars (' ' :: joinSpChars (x :: t)) = [] :: x :: t := by
        unfold jsSplitChars
        rw [hws]
        simp
      have happ := jsSplitChars_append w (hl w (by simp)) (' ' :: joinSpChars (x :: t)) []
        (x :: t) hsp
      show jsSplitChars (joinSpChars (w :: x :: t)) = w :: x :: t
      rw [show joinSpChars (w :: x :: t) = w ++ ' ' :: joinSpChars (x :: t) from rfl]
      rw [happ]
      simp

theorem not_space_of_mem_jsSplitChars : ∀ (s : List Char) (w : List Char),
    w ∈ jsSplitChars s → ' ' ∉ w := by
  intro s
  induction s with
  | nil =>
    intro w hw
    simp [jsSplitChars] at hw
    simp [hw]
  | cons c rest ih =>
    intro w hw
    unfold jsSplitChars at hw
    cases h : jsSplitChars rest with
    | nil => exact absurd h (jsSplitChars_ne_nil rest)
    | cons v vs =>
      rw [h] at hw
      have hw2 : w ∈ (if c = ' ' then [] :: v :: vs else (c :: v) :: vs) := hw
      by_cases hc : c = ' '
      · rw [if_pos hc] at hw2
        rcases List.mem_cons.mp hw2 with hw | hw
        · simp [hw]
        · exact ih w (h ▸ hw)
      · rw [if_neg hc] at hw2
        rcases List.mem_cons.mp hw2 with hw | hw
        · subst hw
          intro hmem
          rcases List.mem_cons.mp hmem with hmem | hmem
          · exact hc hmem.symm
          · exact ih v (h ▸ List.mem_cons_self v vs) hmem
        · exact ih w (h ▸ List.mem_cons_of_mem v hw)

theorem jsSplitStr_ne_nil (f : String) : jsSplitStr f ≠ [] := by
  unfold jsSplitStr
  simp [jsSplitChars_ne_nil]

theorem not_space_of_mem_jsSplitStr (f p : String) (hp : p ∈ jsSplitStr f) : ' ' ∉ p.data := by
  unfold jsSplitStr at hp
  rcases List.mem_map.mp hp with ⟨w, hw, hwp⟩
  have : p.data = w := by rw [← hwp]
  rw [this]
  exact not_space_of_mem_jsSplitChars f.data w hw

theorem jsSplitStr_jsJoinStr (parts : List String) (hne : parts ≠ [])
    (hp : ∀ p ∈ parts, ' ' ∉ p.data) : jsSplitStr (jsJoinStr parts) = parts := by
  unfold jsSplitStr jsJoinStr
  rw [show (String.mk (joinSpChars (parts.map String.data))).data
        = joinSpChars (parts.map String.data) from rfl]
  rw [jsSplitChars_joinSp (parts.map String.data) (by simpa using hne)
    (by intro w hw
        rcases List.mem_map.mp hw with ⟨p, hpm, hpd⟩
        rw [← hpd]
        exact hp p hpm)]
  rw [List.map_map]
  exact (List.map_congr_left fun a _ => rfl).trans (List.map_id parts)

theorem not_space_fenTurn (f : String) : ' ' ∉ (fenTurn f).data := by
  unfold fenTurn
  rcases Nat.lt_or_ge 1 (jsSplitStr f).length with h | h
  · rw [List.getD_eq_getElem _ _ h]
    exact not_space_of_mem_jsSplitStr f _ (List.getElem_mem h)
  · rw [List.getD_eq_default _ _ h]
    simp

theorem length_of_fenTurn_ne (f : String) (h : fenTurn f ≠ "") :
    1 < (jsSplitStr f).length := by
  by_contra hle
  push_neg at hle
  exact h (by unfold fenTurn; exact List.getD_eq_default _ _ hle)

theorem otherColor_ne_empty (c : String) : otherColor c ≠ "" := by
  unfold otherColor
  split <;> simp

theorem not_space_otherColor (c : String) : ' ' ∉ (otherColor c).data := by
  unfold otherColor
  split <;> simp

theorem fenTurn_overrideTurnFen (f c : String) (hlen : 1 < (jsSplitStr f).length)
    (hc : ' ' ∉ c.data) : fenTurn (overrideTurnFen f c) = c := by
  unfold overrideTurnFen fenTurn
  rw [jsSplitStr_jsJoinStr ((jsSplitStr f).set 1 c)
    (by intro hnil
        have hz := congrArg List.length hnil
        simp only [List.length_set, List.length_nil] at hz
        omega)
    (by intro p hpm
        rcases List.mem_or_eq_of_mem_set hpm with hmem | hpc
        · exact not_space_of_mem_jsSplitStr f p hmem
        · rw [hpc]; exact hc)]
  rw [List.getD_eq_getElem _ _ (by simpa using hlen)]
  exact List.getElem_set_self _

/-! ## Rule-engine lemmas -/

theorem setRulesState_snapshots (e : Engine) (st : Option RulesState) :
    (setRulesState e st).snapshots = e.snapshots := by
  unfold setRulesState
  rcases e with ⟨v, gf, ts, sns⟩
  cases v
  · rfl
  · cases st with
    | none => rfl
    | some rs =>
      by_cases h : rs.turnStep = 0 ∨ rs.turnStep = 1 <;> simp [h]

theorem setRulesState_gameFen (e : Engine) (st : Option RulesState) :
    (setRulesState e st).gameFen = e.gameFen := by
  unfold setRulesState
  rcases e with ⟨v, gf, ts, sns⟩
  cases v
  · rfl
  · cases st with
    | none => rfl
    | some rs =>
      by_cases h : rs.turnStep = 0 ∨ rs.turnStep = 1 <;> simp [h]

theorem getRulesState_setRulesState (e : Engine) (sn : Snapshot) (hwf : wfSnap e.variant sn) :
    getRulesState (setRulesState e sn.rulesState) = sn.rulesState := by
  rcases e with ⟨v, gf, ts, sns⟩
  cases v with
  | standard =>
    unfold wfSnap at hwf
    simp [setRulesState, getRulesState, hwf]
  | twoStep =>
    unfold wfSnap at hwf
    rcases hwf with h0 | h1
    · simp [setRulesState, getRulesState, h0]
    · simp [setRulesState, getRulesState, h1]

/-- Claim C5: for every rule-engine state and every n > 0, canUndoPlies n
holds exactly when the snapshot history is longer than n; a failing
undoPlies n returns the failure result and mutates nothing; a succeeding
undoPlies n removes exactly n snapshots, returns the snapshot that was on
top n pushes ago, and restores position and (well-formed) variant state
from it. -/
theorem c5_canUndo_undoPlies (e : Engine) (n : Nat) (hn : 0 < n) :
    (canUndoPlies e n = true ↔ n < e.snapshots.length)
    ∧ (canUndoPlies e n = false → undoPlies e n = (none, e))
    ∧ ∀ h : n < e.snapshots.length,
        (undoPlies e n).1 = some (e.snapshots.get ⟨n, h⟩)
        ∧ (undoPlies e n).2.snapshots = e.snapshots.drop n
        ∧ (undoPlies e n).2.snapshots.length = e.snapshots.length - n
        ∧ (undoPlies e n).2.gameFen = (e.snapshots.get ⟨n, h⟩).fen
        ∧ (wfSnap e.variant (e.snapshots.get ⟨n, h⟩) →
             getRulesState (undoPlies e n).2 = (e.snapshots.get ⟨n, h⟩).rulesState) := by
  have hnz : ¬ n ≤ 0 := by omega
  have hcan : canUndoPlies e n = decide (n < e.snapshots.length) := by
    unfold canUndoPlies
    rw [if_neg hnz]
  have hclamp : max 1 (if n = 0 then 1 else n) = n := by
    rw [if_neg (by omega)]
    exact Nat.max_eq_right hn
  refine ⟨by simp [hcan], ?_, ?_⟩
  · intro hfalse
    simp only [undoPlies, hclamp, hfalse]
    simp
  · intro h
    have hdrop := List.drop_eq_getElem_cons h
    have htrue : canUndoPlies e n = true := by
      rw [hcan]
      exact decide_eq_true h
    have hfne : ¬ canUndoPlies e n = false := by simp [htrue]
    have hout : undoPlies e n =
        (some (e.snapshots.get ⟨n, h⟩),
         setRulesState
           { e with gameFen := (e.snapshots.get ⟨n, h⟩).fen,
                    snapshots := e.snapshots.get ⟨n, h⟩ :: e.snapshots.drop (n + 1) }
           (e.snapshots.get ⟨n, h⟩).rulesState) := by
      simp only [undoPlies, hclamp, hdrop]
      rw [if_neg hfne]
      rfl
    rw [hout]
    refine ⟨rfl, ?_, ?_, ?_, ?_⟩
    · rw [setRulesState_snapshots, hdrop]
      rfl
    · rw [setRulesState_snapshots]
      simp
    · rw [setRulesState_gameFen]
    · intro hwf
      exact getRulesState_setRulesState _ _ hwf

/-- Witness for C5 at a standard engine with three snapshots, undoing one
ply. -/
theorem c5_witness :
    (canUndoPlies engStd3 1 = true ↔ 1 < engStd3.snapshots.length)
    ∧ (undoPlies engStd3 1).1 = some (engStd3.snapshots.get ⟨1, by decide⟩)
    ∧ (undoPlies engStd3 1).2.snapshots.length = engStd3.snapshots.length - 1 := by
  have h := c5_canUndo_undoPlies engStd3 1 (by decide)
  have h2 := h.2.2 (by decide)
  exact ⟨h.1, h2.1, h2.2.2.1⟩

/-- Claim C6: in the two-step variant, a legal move at turnStep 0 that
gives check or ends the game ends the turn (side to move flips, turnStep
0); any other legal move at turnStep 0 forces the side to move back to
the mover and sets turnStep 1; a legal move at turnStep 1 always ends the
turn.  The hypothesis states chess.js semantics: after a legal move the
reported FEN has the opponent of the mover to move. -/
theorem c6_twoStep_turns (e : Engine) (result : ChessOutcome)
    (hflip : fenTurn result.nextFen = otherColor (fenTurn e.gameFen)) :
    (e.turnStep = 0 → (result.inCheck = true ∨ result.gameOver = true) →
       fenTurn (twoStepMakeMove e (some result)).2.gameFen = otherColor (fenTurn e.gameFen)
       ∧ (twoStepMakeMove e (some result)).2.turnStep = 0)
    ∧ (e.turnStep = 0 → result.inCheck = false → result.gameOver = false →
       fenTurn (twoStepMakeMove e (some result)).2.gameFen = fenTurn e.gameFen
       ∧ (twoStepMakeMove e (some result)).2.turnStep = 1)
    ∧ (e.turnStep = 1 →
       fenTurn (twoStepMakeMove e (some result)).2.gameFen = otherColor (fenTurn e.gameFen)
       ∧ (twoStepMakeMove e (some result)).2.turnStep = 0) := by
  refine ⟨?_, ?_, ?_⟩
  · intro hstep hco
    rcases hco with hchk | hover
    · by_cases hgo : result.gameOver = true
      · simp [twoStepMakeMove, pushSnapshot, hgo, hflip]
      · simp [twoStepMakeMove, pushSnapshot, hgo, hstep, hchk, hflip]
    · simp [twoStepMakeMove, pushSnapshot, hover, hflip]
  · intro hstep hchk hgo
    have hlen : 1 < (jsSplitStr result.nextFen).length :=
      length_of_fenTurn_ne result.nextFen (by rw [hflip]; exact otherColor_ne_empty _)
    have hovr : fenTurn (overrideTurnFen result.nextFen (fenTurn e.gameFen)) = fenTurn e.gameFen :=
      fenTurn_overrideTurnFen result.nextFen (fenTurn e.gameFen) hlen (not_space_fenTurn e.gameFen)
    simp [twoStepMakeMove, pushSnapshot, hstep, hchk, hgo, hovr]
  · intro hstep
    have hns : ¬ e.turnStep = 0 := by omega
    by_cases hgo : result.gameOver = true
    · simp [twoStepMakeMove, pushSnapshot, hgo, hflip]
    · simp [twoStepMakeMove, pushSnapshot, hgo, hns, hflip]

/-- Witness for C6: a non-checking first half-move keeps white to move and
sets turnStep 1 on the concrete two-step engine. -/
theorem c6_witness :
    fenTurn (twoStepMakeMove engTwoStep0
      (some (ChessOutcome.mk "q b c e 0 1" false false))).2.gameFen
      = fenTurn engTwoStep0.gameFen
    ∧ (twoStepMakeMove engTwoStep0
      (some (ChessOutcome.mk "q b c e 0 1" false false))).2.turnStep = 1 := by
  have h := c6_twoStep_turns engTwoStep0 (ChessOutcome.mk "q b c e 0 1" false false) (by decide)
  exact h.2.1 rfl rfl rfl

/-! ## Offer negotiation claims -/

/-- Claim C1: for a room with a pending undo offer, a respond call that
accepts (addressed to that offer, by the non-proposer) commits exactly
when the supplied fingerprint equals the offer's base fingerprint; on a
missing or different fingerprint the offer is cleared, the whole room is
told accept false with error OFFER_STALE, and the call fails
OFFER_STALE.  The base fingerprint of a reachable undo offer is a
nonempty string, which hypothesis h9 records. -/
theorem c1_undo_accept_fingerprint (s : Srv) (sid : SessionId) (d : RespondData)
    (r : RoomId) (oid : OfferId) (pending : Offer) (bf : String)
    (h1 : d.roomId = some r) (h2 : d.offerId = some oid)
    (h3 : alookup r s.pendingOffers = some pending)
    (h4 : pending.id = oid) (h5 : pending.fromSid ≠ sid)
    (h6 : pending.type = OfferType.undo) (h7 : d.accept = true)
    (h8 : pending.baseFen = some bf) (h9 : bf ≠ "") :
    (d.currentFen = some bf →
       respond_offer s sid d =
         (Ack.ok,
          { s with pendingOffers := aerase r s.pendingOffers },
          [Emit.toRoom r (Msg.offerResult oid OfferType.undo true none),
           Emit.toRoom r (Msg.undoCommitted oid (jsOr1 pending.plies))]))
    ∧ (d.currentFen = some bf →
       alookup r (respond_offer s sid d).2.1.pendingOffers = none)
    ∧ (d.currentFen ≠ some bf →
       respond_offer s sid d =
         (Ack.err "OFFER_STALE",
          { s with pendingOffers := aerase r s.pendingOffers },
          [Emit.toRoom r (Msg.offerResult oid OfferType.undo false (some "OFFER_STALE"))]))
    ∧ (d.currentFen ≠ some bf →
       alookup r (respond_offer s sid d).2.1.pendingOffers = none) := by
  have hid : ¬ pending.id ≠ oid := by simp [h4]
  have hcommit : d.currentFen = some bf →
      respond_offer s sid d =
        (Ack.ok,
         { s with pendingOffers := aerase r s.pendingOffers },
         [Emit.toRoom r (Msg.offerResult oid OfferType.undo true none),
          Emit.toRoom r (Msg.undoCommitted oid (jsOr1 pending.plies))]) := by
    intro hcf
    have hcond : ¬ (d.accept = true ∧ pending.type = OfferType.undo ∧
        (jsTruthyS d.currentFen = false ∨ jsTruthyS pending.baseFen = false ∨
         d.currentFen ≠ pending.baseFen)) := by
      rw [hcf, h8]
      simp [jsTruthyS, h9]
    simp only [respond_offer, h1, h2, h3]
    rw [if_neg hid, if_neg h5, if_neg hcond, h6, h7]
    simp
  have hstale : d.currentFen ≠ some bf →
      respond_offer s sid d =
        (Ack.err "OFFER_STALE",
         { s with pendingOffers := aerase r s.pendingOffers },
         [Emit.toRoom r (Msg.offerResult oid OfferType.undo false (some "OFFER_STALE"))]) := by
    intro hcf
    have hcond : d.accept = true ∧ pending.type = OfferType.undo ∧
        (jsTruthyS d.currentFen = false ∨ jsTruthyS pending.baseFen = false ∨
         d.currentFen ≠ pending.baseFen) := by
      refine ⟨h7, h6, Or.inr (Or.inr ?_)⟩
      rw [h8]
      exact hcf
    simp only [respond_offer, h1, h2, h3]
    rw [if_neg hid, if_neg h5, if_pos hcond, h6]
  refine ⟨hcommit, ?_, hstale, ?_⟩
  · intro hcf
    rw [hcommit hcf]
    exact alookup_aerase_self r s.pendingOffers
  · intro hcf
    rw [hstale hcf]
    exact alookup_aerase_self r s.pendingOffers

/-- Witness for C1: in the concrete pending-undo room, session 1 accepting
with the matching fingerprint commits, and accepting with a different
fingerprint fails OFFER_STALE. -/
theorem c1_witness :
    respond_offer srvUndoPending 1 respondMatch =
      (Ack.ok,
       { srvUndoPending with pendingOffers := aerase 10 srvUndoPending.pendingOffers },
       [Emit.toRoom 10 (Msg.offerResult ⟨5, 0⟩ OfferType.undo true none),
        Emit.toRoom 10 (Msg.undoCommitted ⟨5, 0⟩ (jsOr1 undoOffer0.plies))])
    ∧ respond_offer srvUndoPending 1 respondStale =
      (Ack.err "OFFER_STALE",
       { srvUndoPending with pendingOffers := aerase 10 srvUndoPending.pendingOffers },
       [Emit.toRoom 10 (Msg.offerResult ⟨5, 0⟩ OfferType.undo false (some "OFFER_STALE"))]) := by
  have hm := c1_undo_accept_fingerprint srvUndoPending 1 respondMatch 10 ⟨5, 0⟩ undoOffer0 "F1"
    rfl rfl (by decide) rfl (by decide) rfl rfl rfl (by decide)
  have hs := c1_undo_accept_fingerprint srvUndoPending 1 respondStale 10 ⟨5, 0⟩ undoOffer0 "F1"
    rfl rfl (by decide) rfl (by decide) rfl rfl rfl (by decide)
  exact ⟨hm.1 rfl, hs.2.2.1 (by decide)⟩

theorem make_move_adapter (s : Srv) (sid : SessionId) (d : MoveData) :
    (make_move s sid d).1.adapter = s.adapter := by
  unfold make_move
  cases hd : d.roomId with
  | none => rfl
  | some r' =>
    cases hp : alookup r' s.pendingOffers with
    | none => simp [hp]
    | some o => by_cases h : o.type = OfferType.undo <;> simp [hp, h]

/-- Claim C2: a make_move event first auto-rejects a pending undo offer
(clearing it and broadcasting accept false with OFFER_REJECTED_BY_MOVE),
leaves a pending draw offer untouched, and then relays the payload
verbatim to every participant of the room except the sender. -/
theorem c2_make_move_relay (s : Srv) (sid : SessionId) (d : MoveData) (r : RoomId)
    (h1 : d.roomId = some r) :
    (∀ o, alookup r s.pendingOffers = some o → o.type = OfferType.undo →
       make_move s sid d =
         ({ s with pendingOffers := aerase r s.pendingOffers },
          [Emit.toRoom r
             (Msg.offerResult o.id OfferType.undo false (some "OFFER_REJECTED_BY_MOVE")),
           Emit.toOthers r sid (Msg.receiveMove d)])
       ∧ alookup r (make_move s sid d).1.pendingOffers = none)
    ∧ (∀ o, alookup r s.pendingOffers = some o → o.type = OfferType.draw →
       make_move s sid d = (s, [Emit.toOthers r sid (Msg.receiveMove d)]))
    ∧ (alookup r s.pendingOffers = none →
       make_move s sid d = (s, [Emit.toOthers r sid (Msg.receiveMove d)]))
    ∧ (∀ x, x ∈ recipients (make_move s sid d).1 (Emit.toOthers r sid (Msg.receiveMove d)) ↔
        (x ∈ (alookup r s.adapter).getD [] ∧ x ≠ sid)) := by
  refine ⟨?_, ?_, ?_, ?_⟩
  · intro o h2 ho
    have hmm : make_move s sid d =
        ({ s with pendingOffers := aerase r s.pendingOffers },
         [Emit.toRoom r
            (Msg.offerResult o.id OfferType.undo false (some "OFFER_REJECTED_BY_MOVE")),
          Emit.toOthers r sid (Msg.receiveMove d)]) := by
      simp [make_move, h1, h2, ho]
    refine ⟨hmm, ?_⟩
    rw [hmm]
    exact alookup_aerase_self r s.pendingOffers
  · intro o h2 ho
    have hne : ¬ o.type = OfferType.undo := by rw [ho]; intro hc; cases hc
    simp [make_move, h1, h2, hne]
  · intro h2
    simp [make_move, h1, h2]
  · intro x
    simp [recipients, make_move_adapter s sid d, List.mem_filter]

/-- Witness for C2: a move in the concrete pending-undo room clears the
offer and relays, and in the pending-draw room relays without touching the
offer. -/
theorem c2_witness :
    make_move srvUndoPending 0 moveData10 =
      ({ srvUndoPending with pendingOffers := aerase 10 srvUndoPending.pendingOffers },
       [Emit.toRoom 10
          (Msg.offerResult ⟨5, 0⟩ OfferType.undo false (some "OFFER_REJECTED_BY_MOVE")),
        Emit.toOthers 10 0 (Msg.receiveMove moveData10)])
    ∧ make_move srvDrawPending 0 moveData10 =
      (srvDrawPending, [Emit.toOthers 10 0 (Msg.receiveMove moveData10)]) := by
  have h1 := c2_make_move_relay srvUndoPending 0 moveData10 10 rfl
  have h2 := c2_make_move_relay srvDrawPending 0 moveData10 10 rfl
  exact ⟨(h1.1 undoOffer0 (by decide) rfl).1, h2.2.1 drawOffer0 (by decide) rfl⟩

/-! ## The single-pending-offer invariant -/

theorem adapterLeave_pendingOffers (s : Srv) (r : RoomId) (sid : SessionId) :
    (adapterLeave s r sid).pendingOffers = s.pendingOffers := by
  unfold adapterLeave
  cases h : alookup r s.adapter <;> rfl

theorem adapterLeave_rooms (s : Srv) (r : RoomId) (sid : SessionId) :
    (adapterLeave s r sid).rooms = s.rooms := by
  unfold adapterLeave
  cases h : alookup r s.adapter <;> rfl

theorem removeFromRoom_pendingOffers (s : Srv) (sid : SessionId) (r : RoomId) (reason : String) :
    (removeFromRoom s sid r reason).1.pendingOffers = s.pendingOffers ∨
    (removeFromRoom s sid r reason).1.pendingOffers = aerase r s.pendingOffers := by
  unfold removeFromRoom
  cases h : alookup r s.rooms with
  | none => left; rfl
  | some ps => by_cases he : ps.erase sid = [] <;> simp [he]

theorem join_room_pendingOffers (s : Srv) (sid : SessionId) (r : RoomId) :
    (join_room s sid r).2.1.pendingOffers = s.pendingOffers := by
  simp only [join_room, adapterJoin]
  split_ifs <;> rfl

theorem keysNodup_removeFromRoom (s : Srv) (sid : SessionId) (r : RoomId) (reason : String)
    (h : KeysNodup s) : KeysNodup (removeFromRoom s sid r reason).1 := by
  unfold KeysNodup at h ⊢
  rcases removeFromRoom_pendingOffers s sid r reason with he | he <;> rw [he]
  · exact h
  · exact keysNodup_aerase r _ h

theorem keysNodup_join (s : Srv) (sid : SessionId) (r : RoomId) (h : KeysNodup s) :
    KeysNodup (join_room s sid r).2.1 := by
  unfold KeysNodup at h ⊢
  rw [join_room_pendingOffers]
  exact h

theorem keysNodup_leave (s : Srv) (sid : SessionId) (r : RoomId) (h : KeysNodup s) :
    KeysNodup (leave_room s sid r).1 := by
  have h1 : KeysNodup { adapterLeave s r sid with
      pendingOffers := aerase r (adapterLeave s r sid).pendingOffers } := by
    unfold KeysNodup
    exact keysNodup_aerase r _ (by rw [adapterLeave_pendingOffers]; exact h)
  have h2 := keysNodup_removeFromRoom _ sid r "leave_room" h1
  simp only [leave_room]
  split
  · exact h2
  · exact h2

theorem keysNodup_disconnect (s : Srv) (sid : SessionId) (h : KeysNodup s) :
    KeysNodup (disconnect s sid).1 := by
  have hAll : KeysNodup (adapterLeaveAll s sid) := h
  simp only [disconnect]
  cases hd : alookup sid (adapterLeaveAll s sid).dataRoom with
  | some r => exact keysNodup_removeFromRoom _ sid r "disconnect" hAll
  | none =>
    cases hf : findRoomWith sid (adapterLeaveAll s sid).rooms with
    | some r => exact keysNodup_removeFromRoom _ sid r "disconnect" hAll
    | none => exact hAll

theorem keysNodup_offer (s : Srv) (sid : SessionId) (now : Nat) (d : OfferData)
    (h : KeysNodup s) : KeysNodup (offer_action s sid now d).2.1 := by
  unfold KeysNodup at h ⊢
  obtain ⟨dr, dt, dfc, dp, dbf⟩ := d
  cases dr with
  | none => cases dt <;> exact h
  | some r =>
    cases dt with
    | none => exact h
    | some ty =>
      simp only [offer_action]
      by_cases h1 : ty = OfferType.undo ∧ jsTruthyS dbf = false
      · rw [if_pos h1]
        exact h
      · rw [if_neg h1]
        by_cases h2 : roomSize s r < 2
        · rw [if_pos h2]
          exact h
        · rw [if_neg h2]
          cases hp : alookup r s.pendingOffers with
          | some o => exact h
          | none => exact keysNodup_aset r _ _ h

theorem keysNodup_respond (s : Srv) (sid : SessionId) (d : RespondData)
    (h : KeysNodup s) : KeysNodup (respond_offer s sid d).2.1 := by
  unfold KeysNodup at h ⊢
  obtain ⟨dr, doid, dacc, dcf⟩ := d
  cases dr with
  | none => exact h
  | some r =>
    cases doid with
    | none => exact h
    | some oid =>
      cases hp : alookup r s.pendingOffers with
      | none =>
        simp only [respond_offer, hp]
        exact h
      | some pending =>
        simp only [respond_offer, hp]
        split_ifs <;> first
          | exact h
          | exact keysNodup_aerase r _ h

theorem keysNodup_move (s : Srv) (sid : SessionId) (d : MoveData)
    (h : KeysNodup s) : KeysNodup (make_move s sid d).1 := by
  unfold KeysNodup at h ⊢
  obtain ⟨dr, db⟩ := d
  cases dr with
  | none => exact h
  | some r =>
    cases hp : alookup r s.pendingOffers with
    | none =>
      simp only [make_move, hp]
      exact h
    | some o =>
      by_cases ht : o.type = OfferType.undo
      · simp only [make_move, hp, if_pos ht]
        exact keysNodup_aerase r _ h
      · simp only [make_move, hp, if_neg ht]
        exact h

theorem keysNodup_step (s : Srv) (ev : SEvent) (h : KeysNodup s) : KeysNodup (stepSrv s ev) := by
  cases ev with
  | join sid r => exact keysNodup_join s sid r h
  | leave sid r => exact keysNodup_leave s sid r h
  | offer sid now d => exact keysNodup_offer s sid now d h
  | respond sid d => exact keysNodup_respond s sid d h
  | move sid d => exact keysNodup_move s sid d h
  | disc sid => exact keysNodup_disconnect s sid h

theorem keysNodup_foldl : ∀ (evs : List SEvent) (s : Srv), KeysNodup s →
    KeysNodup (List.foldl stepSrv s evs) := by
  intro evs
  induction evs with
  | nil => intro s h; exact h
  | cons ev t ih => intro s h; exact ih (stepSrv s ev) (keysNodup_step s ev h)

theorem keysNodup_runSrv (evs : List SEvent) : KeysNodup (runSrv evs) :=
  keysNodup_foldl evs initSrv (by simp [KeysNodup, initSrv])

/-- Claim C3: each room has at most one pending offer in every reachable
state; proposing over an existing offer fails OFFER_PENDING and creates
nothing; a successful propose installs exactly one offer carrying the
freshly generated id and notifies only the participants other than the
proposer; and the resolution paths (respond addressed to the offer by the
non-proposer, including the stale path; a move over a pending undo; room
deletion on emptying) all remove the offer. -/
theorem c3_single_pending_offer :
    (∀ (evs : List SEvent) (r : RoomId), offersFor (runSrv evs) r ≤ 1)
    ∧ (∀ (s : Srv) (sid : SessionId) (now : Nat) (d : OfferData) (r : RoomId)
        (ty : OfferType) (o : Offer), d.roomId = some r → d.type = some ty →
        ¬(ty = OfferType.undo ∧ jsTruthyS d.baseFen = false) →
        ¬ roomSize s r < 2 →
        alookup r s.pendingOffers = some o →
        offer_action s sid now d = (Ack.err "OFFER_PENDING", s, []))
    ∧ (∀ (s : Srv) (sid : SessionId) (now : Nat) (d : OfferData) (r : RoomId)
        (ty : OfferType), d.roomId = some r → d.type = some ty →
        ¬(ty = OfferType.undo ∧ jsTruthyS d.baseFen = false) →
        ¬ roomSize s r < 2 →
        alookup r s.pendingOffers = none →
        ∃ off : Offer, off.id = ⟨now, sid⟩ ∧
          offer_action s sid now d =
            (Ack.okOffer ⟨now, sid⟩,
             { s with pendingOffers := aset r off s.pendingOffers },
             [Emit.toOthers r sid (Msg.offerReceived ⟨now, sid⟩ ty d.fromColor off.plies)]) ∧
          alookup r (offer_action s sid now d).2.1.pendingOffers = some off ∧
          (∀ r2, r2 ≠ r →
            alookup r2 (offer_action s sid now d).2.1.pendingOffers
              = alookup r2 s.pendingOffers) ∧
          (∀ x, x ∈ recipients (offer_action s sid now d).2.1
              (Emit.toOthers r sid (Msg.offerReceived ⟨now, sid⟩ ty d.fromColor off.plies)) ↔
            x ∈ (alookup r s.adapter).getD [] ∧ x ≠ sid))
    ∧ (∀ (s : Srv) (sid : SessionId) (d : RespondData) (r : RoomId) (oid : OfferId)
        (pending : Offer), d.roomId = some r → d.offerId = some oid →
        alookup r s.pendingOffers = some pending → pending.id = oid → pending.fromSid ≠ sid →
        alookup r (respond_offer s sid d).2.1.pendingOffers = none)
    ∧ (∀ (s : Srv) (sid : SessionId) (d : MoveData) (r : RoomId) (o : Offer),
        d.roomId = some r → alookup r s.pendingOffers = some o →
        o.type = OfferType.undo → alookup r (make_move s sid d).1.pendingOffers = none)
    ∧ (∀ (s : Srv) (sid : SessionId) (r : RoomId) (reason : String) (ps : List SessionId),
        alookup r s.rooms = some ps → ps.erase sid = [] →
        alookup r (removeFromRoom s sid r reason).1.pendingOffers = none) := by
  refine ⟨?_, ?_, ?_, ?_, ?_, ?_⟩
  · intro evs r
    exact length_filter_key_le_one r _ (keysNodup_runSrv evs)
  · intro s sid now d r ty o h1 h2 h3 h4 h5
    simp only [offer_action, h1, h2, h5]
    rw [if_neg h3, if_neg h4]
  · intro s sid now d r ty h1 h2 h3 h4 h5
    have ht : offer_action s sid now d =
        (Ack.okOffer ⟨now, sid⟩,
         { s with pendingOffers := aset r (newOffer sid now ty d) s.pendingOffers },
         [Emit.toOthers r sid
            (Msg.offerReceived ⟨now, sid⟩ ty d.fromColor (newOffer sid now ty d).plies)]) := by
      simp only [offer_action, h1, h2, h5]
      rw [if_neg h3, if_neg h4]
      rfl
    refine ⟨newOffer sid now ty d, rfl, ht, ?_, ?_, ?_⟩
    · rw [ht]
      exact alookup_aset_self r _ s.pendingOffers
    · intro r2 hr2
      rw [ht]
      exact alookup_aset_ne r r2 _ s.pendingOffers hr2
    · intro x
      rw [ht]
      simp [recipients, List.mem_filter]
  · intro s sid d r oid pending h1 h2 h3 h4 h5
    have hid : ¬ pending.id ≠ oid := by simp [h4]
    simp only [respond_offer, h1, h2, h3]
    rw [if_neg hid, if_neg h5]
    split_ifs <;> exact alookup_aerase_self r _
  · intro s sid d r o h1 h2 h3
    simp only [make_move, h1, h2, if_pos h3]
    exact alookup_aerase_self r _
  · intro s sid r reason ps h1 h2
    simp only [removeFromRoom, h1, h2]
    simp
    exact alookup_aerase_self r _

/-- Witness for C3: proposing in the concrete pending-undo room fails
OFFER_PENDING without changing anything, and a move there clears the
pending undo offer. -/
theorem c3_witness :
    offer_action srvUndoPending 1 99 undoReq3 = (Ack.err "OFFER_PENDING", srvUndoPending, [])
    ∧ alookup 10 (make_move srvUndoPending 2 moveData10).1.pendingOffers = none := by
  refine ⟨?_, ?_⟩
  · exact c3_single_pending_offer.2.1 srvUndoPending 1 99 undoReq3 10 OfferType.undo undoOffer0
      rfl rfl (by decide) (by decide) (by decide)
  · exact c3_single_pending_offer.2.2.2.2.1 srvUndoPending 2 moveData10 10 undoOffer0
      rfl (by decide) rfl

/-! ## Registry claims -/

/-- Claim C4 (code bug): after the leak trace, room 10's participants list
has three entries.  A session that joined a second room before
disconnecting leaves a stale entry in the first room's players array (the
disconnect handler only cleans the room recorded in socket.data.roomId,
and socket.io removes the socket from the live adapter rooms), so two
fresh joins push the list to length 3 while the ROOM_FULL guard, which
only counts the live adapter membership, never fires. -/
theorem c4_participants_overflow :
    alookup 10 (runSrv leakTrace).rooms = some [0, 1, 2]
    ∧ ((alookup 10 (runSrv leakTrace).rooms).getD []).length = 3
    ∧ roomSize (runSrv leakTrace) 10 = 2 := by
  refine ⟨rfl, rfl, rfl⟩

/-- Claim C7 (code bug): a successful undo propose clamps the requested
plies with max(1, min(2, plies)) regardless of the active variant, so a
request for 3 plies (legitimate under the two-step variant, whose undo
spans 1 to 4 plies) is stored and broadcast as 2. -/
theorem c7_plies_clamped_to_two :
    (offer_action srvNoPending 0 99 undoReq3).1 = Ack.okOffer ⟨99, 0⟩
    ∧ undoReq3.plies = some 3
    ∧ alookup 10 (offer_action srvNoPending 0 99 undoReq3).2.1.pendingOffers
        = some (newOffer 0 99 OfferType.undo undoReq3)
    ∧ (newOffer 0 99 OfferType.undo undoReq3).plies = some 2
    ∧ (offer_action srvNoPending 0 99 undoReq3).2.2
        = [Emit.toOthers 10 0 (Msg.offerReceived ⟨99, 0⟩ OfferType.undo "w" (some 2))] := by
  refine ⟨rfl, rfl, by decide, by decide, by decide⟩

theorem adapterJoin_rooms (s : Srv) (r : RoomId) (sid : SessionId) :
    (adapterJoin s r sid).rooms = s.rooms := by
  simp only [adapterJoin]
  split <;> rfl

theorem adapterJoin_dataRoom (s : Srv) (r : RoomId) (sid : SessionId) :
    (adapterJoin s r sid).dataRoom = s.dataRoom := by
  simp only [adapterJoin]
  split <;> rfl

/-- Claim C10 counterexample: in a full room both of whose members are
live, a repeated join by an existing participant is rejected with
ROOM_FULL instead of succeeding idempotently. -/
theorem c10_counterexample :
    alookup 10 (runSrv fullTrace).rooms = some [0, 1]
    ∧ (join_room (runSrv fullTrace) 0 10).1 = Ack.err "ROOM_FULL"
    ∧ (join_room (runSrv fullTrace) 0 10).2.1 = runSrv fullTrace := by
  refine ⟨rfl, rfl, rfl⟩

/-- Claim C10 as amended: a repeated join by an existing participant
succeeds only while the live adapter membership is below 2; when it does
proceed, the players array is unchanged (no duplicate entry, same length)
and the session is reported at its existing index, hence with its
existing index-derived color. -/
theorem c10_rejoin_idempotent (s : Srv) (sid : SessionId) (r : RoomId) (ps : List SessionId)
    (h1 : alookup r s.rooms = some ps) (h2 : sid ∈ ps) (h3 : ¬ roomSize s r ≥ 2) :
    (join_room s sid r).1 = Ack.ok
    ∧ (join_room s sid r).2.1.rooms = s.rooms
    ∧ (join_room s sid r).2.2 =
        [Emit.toSelf sid (Msg.playerAssignment
           (if indexOfSid sid ps = 0 then "w" else "b") (indexOfSid sid ps)),
         Emit.toRoom r (Msg.roomInfo (roomSize (join_room s sid r).2.1 r))] := by
  have hr2 : (adapterJoin { s with dataRoom := aset sid r s.dataRoom } r sid).rooms
      = s.rooms := by
    rw [adapterJoin_rooms]
  have hlook : alookup r (adapterJoin { s with dataRoom := aset sid r s.dataRoom } r sid).rooms
      = some ps := by
    rw [hr2]
    exact h1
  have hj : join_room s sid r =
      (Ack.ok, adapterJoin { s with dataRoom := aset sid r s.dataRoom } r sid,
       [Emit.toSelf sid (Msg.playerAssignment
          (if indexOfSid sid ps = 0 then "w" else "b") (indexOfSid sid ps)),
        Emit.toRoom r (Msg.roomInfo
          (roomSize (adapterJoin { s with dataRoom := aset sid r s.dataRoom } r sid) r))]) := by
    simp only [join_room, if_neg h3, hlook, Option.isNone_some, Bool.false_eq_true, if_false,
      Option.getD_some, if_pos h2]
  rw [hj]
  exact ⟨rfl, hr2, rfl⟩

/-- Witness for the amended C10: the sole member of a one-member room
rejoins successfully, keeping the players array and index 0. -/
theorem c10_witness :
    (join_room (runSrv [SEvent.join 0 10]) 0 10).1 = Ack.ok
    ∧ (join_room (runSrv [SEvent.join 0 10]) 0 10).2.1.rooms = (runSrv [SEvent.join 0 10]).rooms := by
  have h := c10_rejoin_idempotent (runSrv [SEvent.join 0 10]) 0 10 [0] rfl
    (by decide) (by decide)
  exact ⟨h.1, h.2.1⟩

theorem removeFromRoom_no_assignment (s : Srv) (sid : SessionId) (r : RoomId) (reason : String) :
    ∀ e ∈ (removeFromRoom s sid r reason).2, isAssignment e = false := by
  simp only [removeFromRoom]
  cases h : alookup r s.rooms with
  | none => simp
  | some ps => by_cases he : ps.erase sid = [] <;> simp [he, isAssignment]

theorem leave_room_emits (s : Srv) (sid : SessionId) (r : RoomId) :
    (leave_room s sid r).2 =
    (removeFromRoom { adapterLeave s r sid with
        pendingOffers := aerase r (adapterLeave s r sid).pendingOffers } sid r "leave_room").2 :=
  rfl

/-- Claim C8 counterexample: sessions 0 and 1 join room 10 (1 is assigned
black), then 0 leaves; the survivor now occupies index 0 (index-derived
color white) but the leave emits no player_assignment, so the color held
is still the join-time black. -/
theorem c8_counterexample :
    colorOf c8Trace 1 = some "b"
    ∧ alookup 10 (runSrv c8Trace).rooms = some [1]
    ∧ indexDerivedColor c8Trace 10 1 = "w"
    ∧ (leave_room (runSrv fullTrace) 0 10).2
        = [Emit.toOthers 10 0 (Msg.opponentLeft 0 "leave_room"),
           Emit.toRoom 10 (Msg.roomInfo 1)] := by
  refine ⟨rfl, rfl, rfl, rfl⟩

/-- Claim C8 as amended: a participant's color is derived purely from the
index it occupies at join time (so removals that happened before the join
are reflected), but the derivation is not recomputed afterwards: neither
an explicit leave nor a disconnect ever emits a player_assignment, so a
surviving participant keeps its join-time color even when its index
changes. -/
theorem c8_join_color_not_recomputed :
    (∀ (s : Srv) (sid : SessionId) (r : RoomId), ¬ roomSize s r ≥ 2 →
      (join_room s sid r).2.2 =
        [Emit.toSelf sid (Msg.playerAssignment
           (if indexOfSid sid ((alookup r (join_room s sid r).2.1.rooms).getD []) = 0
            then "w" else "b")
           (indexOfSid sid ((alookup r (join_room s sid r).2.1.rooms).getD []))),
         Emit.toRoom r (Msg.roomInfo (roomSize (join_room s sid r).2.1 r))])
    ∧ (∀ (s : Srv) (sid : SessionId) (r : RoomId), ∀ e ∈ (leave_room s sid r).2,
        isAssignment e = false)
    ∧ (∀ (s : Srv) (sid : SessionId), ∀ e ∈ (disconnect s sid).2, isAssignment e = false) := by
  refine ⟨?_, ?_, ?_⟩
  · intro s sid r h
    simp only [join_room, if_neg h]
  · intro s sid r e he
    rw [leave_room_emits] at he
    exact removeFromRoom_no_assignment _ sid r _ e he
  · intro s sid e he
    simp only [disconnect] at he
    cases hd : alookup sid (adapterLeaveAll s sid).dataRoom with
    | some r =>
      simp only [hd] at he
      exact removeFromRoom_no_assignment _ sid r _ e he
    | none =>
      simp only [hd] at he
      cases hf : findRoomWith sid (adapterLeaveAll s sid).rooms with
      | some r =>
        simp only [hf] at he
        exact removeFromRoom_no_assignment _ sid r _ e he
      | none =>
        simp only [hf] at he
        simp at he

/-- Witness for the amended C8: the second join into room 10 is told the
color derived from its index in the updated players array. -/
theorem c8_witness :
    (join_room (runSrv [SEvent.join 0 10]) 1 10).2.2 =
      [Emit.toSelf 1 (Msg.playerAssignment
         (if indexOfSid 1
              ((alookup 10 (join_room (runSrv [SEvent.join 0 10]) 1 10).2.1.rooms).getD []) = 0
          then "w" else "b")
         (indexOfSid 1
            ((alookup 10 (join_room (runSrv [SEvent.join 0 10]) 1 10).2.1.rooms).getD []))),
       Emit.toRoom 10 (Msg.roomInfo (roomSize (join_room (runSrv [SEvent.join 0 10]) 1 10).2.1 10))] :=
  c8_join_color_not_recomputed.1 (runSrv [SEvent.join 0 10]) 1 10 (by decide)

/-! ## Leave versus disconnect -/

theorem adapterLeave_dataRoom (s : Srv) (r : RoomId) (sid : SessionId) :
    (adapterLeave s r sid).dataRoom = s.dataRoom := by
  unfold adapterLeave
  cases h : alookup r s.adapter <;> rfl

theorem alookup_adapterLeave_adapter (s : Srv) (r : RoomId) (sid : SessionId) :
    alookup r (adapterLeave s r sid).adapter
      = (alookup r s.adapter).map (fun l => l.erase sid) := by
  unfold adapterLeave
  cases h : alookup r s.adapter with
  | none => simp [h]
  | some cur => simp [alookup_aset_self]

theorem alookup_adapterLeaveAll_adapter (s : Srv) (r : RoomId) (sid : SessionId) :
    alookup r (adapterLeaveAll s sid).adapter
      = (alookup r s.adapter).map (fun l => l.erase sid) := by
  unfold adapterLeaveAll
  exact alookup_map_snd r (fun l => l.erase sid) s.adapter

theorem aerase_aerase {α β : Type} [DecidableEq α] (k : α) (l : List (α × β)) :
    aerase k (aerase k l) = aerase k l := by
  unfold aerase
  rw [List.filter_filter]
  simp

theorem removeFromRoom_eq_of_some (s : Srv) (sid : SessionId) (r : RoomId) (reason : String)
    (ps : List SessionId) (h : alookup r s.rooms = some ps) :
    removeFromRoom s sid r reason =
      if ps.erase sid = [] then
        ({ s with rooms := aerase r s.rooms, pendingOffers := aerase r s.pendingOffers },
         [Emit.toOthers r sid (Msg.opponentLeft sid reason)])
      else
        ({ s with rooms := aset r (ps.erase sid) s.rooms },
         [Emit.toOthers r sid (Msg.opponentLeft sid reason),
          Emit.toRoom r (Msg.roomInfo (roomSize s r))]) := by
  simp only [removeFromRoom, h]

theorem leave_room_eq (s : Srv) (sid : SessionId) (r : RoomId) (ps : List SessionId)
    (h1 : alookup sid s.dataRoom = some r) (h2 : alookup r s.rooms = some ps) :
    leave_room s sid r =
      if ps.erase sid = [] then
        ({ s with rooms := aerase r s.rooms,
                  pendingOffers := aerase r (aerase r s.pendingOffers),
                  adapter := (adapterLeave s r sid).adapter,
                  dataRoom := aerase sid s.dataRoom },
         [Emit.toOthers r sid (Msg.opponentLeft sid "leave_room")])
      else
        ({ s with rooms := aset r (ps.erase sid) s.rooms,
                  pendingOffers := aerase r s.pendingOffers,
                  adapter := (adapterLeave s r sid).adapter,
                  dataRoom := aerase sid s.dataRoom },
         [Emit.toOthers r sid (Msg.opponentLeft sid "leave_room"),
          Emit.toRoom r (Msg.roomInfo
            (roomSize { s with adapter := (adapterLeave s r sid).adapter } r))]) := by
  have hS2rooms : alookup r ({ adapterLeave s r sid with
      pendingOffers := aerase r (adapterLeave s r sid).pendingOffers } : Srv).rooms
      = some ps := by
    show alookup r (adapterLeave s r sid).rooms = some ps
    rw [adapterLeave_rooms]
    exact h2
  have hrm := removeFromRoom_eq_of_some { adapterLeave s r sid with
      pendingOffers := aerase r (adapterLeave s r sid).pendingOffers } sid r "leave_room"
    ps hS2rooms
  simp only [leave_room, hrm]
  by_cases he : ps.erase sid = []
  · rw [if_pos he, if_pos he]
    simp only [adapterLeave_rooms, adapterLeave_pendingOffers, adapterLeave_dataRoom, h1]
    simp
  · rw [if_neg he, if_neg he]
    simp only [adapterLeave_rooms, adapterLeave_pendingOffers, adapterLeave_dataRoom, h1,
      roomSize]
    simp

theorem disconnect_eq (s : Srv) (sid : SessionId) (r : RoomId) (ps : List SessionId)
    (h1 : alookup sid s.dataRoom = some r) (h2 : alookup r s.rooms = some ps) :
    disconnect s sid =
      if ps.erase sid = [] then
        ({ s with rooms := aerase r s.rooms,
                  pendingOffers := aerase r s.pendingOffers,
                  adapter := (adapterLeaveAll s sid).adapter,
                  dataRoom := aerase sid s.dataRoom },
         [Emit.toOthers r sid (Msg.opponentLeft sid "disconnect")])
      else
        ({ s with rooms := aset r (ps.erase sid) s.rooms,
                  pendingOffers := s.pendingOffers,
                  adapter := (adapterLeaveAll s sid).adapter,
                  dataRoom := aerase sid s.dataRoom },
         [Emit.toOthers r sid (Msg.opponentLeft sid "disconnect"),
          Emit.toRoom r (Msg.roomInfo
            (roomSize { s with adapter := (adapterLeaveAll s sid).adapter } r))]) := by
  have hdr : alookup sid (adapterLeaveAll s sid).dataRoom = some r := h1
  have hrooms : alookup r (adapterLeaveAll s sid).rooms = some ps := h2
  have hrm := removeFromRoom_eq_of_some (adapterLeaveAll s sid) sid r "disconnect" ps hrooms
  simp only [disconnect, hdr, hrm]
  by_cases he : ps.erase sid = []
  · rw [if_pos he, if_pos he]
    simp [adapterLeaveAll, roomSize]
  · rw [if_neg he, if_neg he]
    simp [adapterLeaveAll, roomSize]

/-- Claim C9 counterexample: in the concrete room with a pending draw
offer, an explicit leave deletes the offer while a disconnect of the same
participant keeps it (the two transitions differ beyond the reason
field). -/
theorem c9_counterexample :
    (leave_room srvDrawPending 0 10).1.pendingOffers = []
    ∧ (disconnect srvDrawPending 0).1.pendingOffers = [(10, drawOffer0)]
    ∧ (disconnect srvDrawPending 0).1.rooms = (leave_room srvDrawPending 0 10).1.rooms := by
  refine ⟨rfl, rfl, rfl⟩

/-- Claim C9 as amended: for a participant whose recorded room exists,
disconnection and explicit leave perform the same membership removal,
dataRoom cleanup and room-adapter update, and broadcast the same messages
up to the reason field; they differ in pending-offer disposal: leave
always clears the room's pending offer, while disconnect clears it only
when the room becomes empty and otherwise leaves it in place. -/
theorem c9_disconnect_vs_leave (s : Srv) (sid : SessionId) (r : RoomId) (ps : List SessionId)
    (h1 : alookup sid s.dataRoom = some r) (h2 : alookup r s.rooms = some ps) :
    (leave_room s sid r).1.rooms = (disconnect s sid).1.rooms
    ∧ (leave_room s sid r).1.dataRoom = (disconnect s sid).1.dataRoom
    ∧ alookup r (leave_room s sid r).1.adapter = alookup r (disconnect s sid).1.adapter
    ∧ (disconnect s sid).2 = (leave_room s sid r).2.map (setReason "disconnect")
    ∧ alookup r (leave_room s sid r).1.pendingOffers = none
    ∧ (ps.erase sid = [] → alookup r (disconnect s sid).1.pendingOffers = none)
    ∧ (ps.erase sid ≠ [] →
        alookup r (disconnect s sid).1.pendingOffers = alookup r s.pendingOffers) := by
  rw [leave_room_eq s sid r ps h1 h2, disconnect_eq s sid r ps h1 h2]
  by_cases he : ps.erase sid = []
  · rw [if_pos he, if_pos he]
    refine ⟨rfl, rfl, ?_, ?_, ?_, ?_, ?_⟩
    · rw [alookup_adapterLeave_adapter, alookup_adapterLeaveAll_adapter]
    · simp [setReason]
    · exact alookup_aerase_self r _
    · intro _
      exact alookup_aerase_self r _
    · intro hne
      exact absurd he hne
  · rw [if_neg he, if_neg he]
    refine ⟨rfl, rfl, ?_, ?_, ?_, ?_, ?_⟩
    · rw [alookup_adapterLeave_adapter, alookup_adapterLeaveAll_adapter]
    · simp only [List.map_cons, List.map_nil, setReason]
      have hsize : roomSize { s with adapter := (adapterLeaveAll s sid).adapter } r
          = roomSize { s with adapter := (adapterLeave s r sid).adapter } r := by
        simp only [roomSize]
        rw [show ({ s with adapter := (adapterLeaveAll s sid).adapter } : Srv).adapter
              = (adapterLeaveAll s sid).adapter from rfl]
        rw [show ({ s with adapter := (adapterLeave s r sid).adapter } : Srv).adapter
              = (adapterLeave s r sid).adapter from rfl]
        rw [alookup_adapterLeave_adapter, alookup_adapterLeaveAll_adapter]
      rw [hsize]
    · exact alookup_aerase_self r _
    · intro hemp
      exact absurd hemp he
    · intro _
      rfl

/-- Witness for the amended C9: applied to the concrete draw-pending room;
the disconnect broadcasts equal the leave broadcasts with the reason
rewritten, and the leave has cleared the pending offer. -/
theorem c9_witness :
    (disconnect srvDrawPending 0).2
      = (leave_room srvDrawPending 0 10).2.map (setReason "disconnect")
    ∧ alookup 10 (leave_room srvDrawPending 0 10).1.pendingOffers = none := by
  have h := c9_disconnect_vs_leave srvDrawPending 0 10 [0, 1] rfl rfl
  exact ⟨h.2.2.2.1, h.2.2.2.2.1⟩
